import Mathlib

/-!
# The default message-id provider of MQTT.js

A shallow embedding of `lib/default-message-id-provider.js` and the properties
of its allocation sequence.

The class has one field, `nextId`.  Every method is embedded as a pure function
from the state before the call to the returned value and the state after it.

JavaScript numbers are binary64 values.  The field `nextId` holds integers, which
are embedded as `Int`; the constructor, `++` and the assignment of 1 write
nothing else.  The operations `++` and `- 1` are embedded with their binary64
rounding (`f64OfInt`): they are exact for results of magnitude below `2^53`,
and above it the result is rounded to 53 significant bits, so that `++` leaves
`2^53` unchanged.  The product `Math.random() * 65535` in the constructor is
embedded with its rounding as well, on natural numbers counting units of
`2^-1074` (every finite binary64 value is an integer number of such units).
-/

set_option exponentiation.threshold 4096
set_option maxRecDepth 100000

/-- The state of a provider: the field `this.nextId`. -/
structure DefaultMessageIdProvider where
  nextId : Int
deriving DecidableEq, Repr

namespace DefaultMessageIdProvider

/-! ## Binary64 arithmetic used by the constructor -/

/-- Number of units of `2^-1074` in the value `1`. -/
def f64One : Nat := 2 ^ 1074

/-- Bit length of `n` with explicit fuel: `0` for `0`, else `floor (log2 n) + 1`. -/
def bitLengthAux : Nat → Nat → Nat
  | 0, _ => 0
  | fuel + 1, n => if n = 0 then 0 else bitLengthAux fuel (n / 2) + 1

/-- Bit length of `n`. -/
def bitLength (n : Nat) : Nat := bitLengthAux n n

/-- Rounding of an exact nonnegative result of `n` units of `2^-1074` to binary64,
round-to-nearest, ties-to-even: at most 53 significant bits are kept.  Below
`2^53` units (subnormals and the first binade) every unit count is representable.
The same holds when the unit is a larger power of two, such as 1.  Results stay
below the overflow threshold wherever this is applied. -/
def f64Round (n : Nat) : Nat :=
  let s := bitLength n - 53
  let q := n / 2 ^ s
  let rem := n % 2 ^ s
  if 2 ^ s < 2 * rem ∨ (2 * rem = 2 ^ s ∧ q % 2 = 1) then (q + 1) * 2 ^ s else q * 2 ^ s

/-- The binary64 product `x * k` of a nonnegative binary64 value of `x` units of
`2^-1074` by a nonnegative integer `k`: the exact product, rounded. -/
def f64MulNat (x k : Nat) : Nat := f64Round (x * k)

/-- The binary64 value of an exact integer result `x`, as `++` and `- 1` produce
on an integer: the sign of `x`, and its magnitude rounded to 53 significant bits
(`f64Round` with the unit 1). -/
def f64OfInt (x : Int) : Int :=
  if 0 ≤ x then ((f64Round x.toNat : Nat) : Int) else -((f64Round (-x).toNat : Nat) : Int)

/-- The function `Math.floor` on a nonnegative value of `x` units of `2^-1074`. -/
def mathFloor (x : Nat) : Int := ((x / f64One : Nat) : Int)

/-- A value that `Math.random()` can return: a binary64 value `r` with `0 <= r < 1`,
given as its number of units of `2^-1074`. -/
def isRandomDraw (random : Nat) : Prop := random < f64One ∧ f64Round random = random

instance (random : Nat) : Decidable (isRandomDraw random) :=
  inferInstanceAs (Decidable (_ ∧ _))

/-! ## The class -/

/-- The constructor, `this.nextId = Math.max(1, Math.floor(Math.random() * 65535))`;
`random` is the value returned by `Math.random()`, in units of `2^-1074`. -/
def constructor (random : Nat) : DefaultMessageIdProvider :=
  ⟨max 1 (mathFloor (f64MulNat random 65535))⟩

/-- The method `allocate()`: the returned id and the state after the call. -/
def allocate (p : DefaultMessageIdProvider) : Int × DefaultMessageIdProvider :=
  let id := p.nextId
  let p1 : DefaultMessageIdProvider := ⟨f64OfInt (p.nextId + 1)⟩
  if p1.nextId = 65536 then (id, ⟨1⟩) else (id, p1)

/-- The method `getLastAllocated()`. -/
def getLastAllocated (p : DefaultMessageIdProvider) : Int :=
  if p.nextId = 1 then 65535 else f64OfInt (p.nextId - 1)

/-- The method `register(messageId)`: the returned boolean and the state after the call. -/
def register (p : DefaultMessageIdProvider) (_messageId : Int) : Bool × DefaultMessageIdProvider :=
  (true, p)

/-- The method `deallocate(messageId)`, with an empty body. -/
def deallocate (p : DefaultMessageIdProvider) (_messageId : Int) : DefaultMessageIdProvider :=
  p

/-- The method `clear()`, with an empty body. -/
def clear (p : DefaultMessageIdProvider) : DefaultMessageIdProvider :=
  p

/-! ## Call sequences -/

/-- A method call on a provider. -/
inductive Call where
  | allocate
  | getLastAllocated
  | register (messageId : Int)
  | deallocate (messageId : Int)
  | clear
deriving DecidableEq, Repr

/-- The value a method call returns. -/
inductive Ret where
  | num (v : Int)
  | bool (b : Bool)
  | undefined
deriving DecidableEq, Repr

/-- One method call: the returned value and the state after the call. -/
def call (p : DefaultMessageIdProvider) : Call → Ret × DefaultMessageIdProvider
  | Call.allocate => (Ret.num (allocate p).1, (allocate p).2)
  | Call.getLastAllocated => (Ret.num (getLastAllocated p), p)
  | Call.register messageId => (Ret.bool (register p messageId).1, (register p messageId).2)
  | Call.deallocate messageId => (Ret.undefined, deallocate p messageId)
  | Call.clear => (Ret.undefined, clear p)

/-- A finite sequence of method calls: the trace of calls with their returned
values, and the state after the last call. -/
def runCalls : DefaultMessageIdProvider → List Call →
    List (Call × Ret) × DefaultMessageIdProvider
  | p, [] => ([], p)
  | p, c :: cs =>
    let r := call p c
    let rest := runCalls r.2 cs
    ((c, r.1) :: rest.1, rest.2)

/-- The ids returned by `n` consecutive `allocate()` calls, and the state after them. -/
def allocateN : DefaultMessageIdProvider → Nat → List Int × DefaultMessageIdProvider
  | p, 0 => ([], p)
  | p, n + 1 =>
    let r := allocate p
    let rest := allocateN r.2 n
    (r.1 :: rest.1, rest.2)

/-- The states a provider can be in: the state the constructor leaves for some
value of `Math.random()`, and every state reached from it by method calls. -/
inductive Reachable : DefaultMessageIdProvider → Prop where
  | init (random : Nat) (h : isRandomDraw random) : Reachable (constructor random)
  | step (p : DefaultMessageIdProvider) (c : Call) (h : Reachable p) : Reachable (call p c).2

/-- The range of message ids: `1 <= nextId <= 65535`. -/
def inRange (p : DefaultMessageIdProvider) : Prop := 1 ≤ p.nextId ∧ p.nextId ≤ 65535

instance (p : DefaultMessageIdProvider) : Decidable (inRange p) :=
  inferInstanceAs (Decidable (_ ∧ _))

/-- The ids in use after a trace, in the words of the interface contract: an id
is in use once `allocate()` returned it or `register` accepted it, until
`deallocate` releases it or `clear()` releases all. -/
def outstandingStep (ids : List Int) : Call × Ret → List Int
  | (Call.allocate, Ret.num id) => id :: ids
  | (Call.register id, Ret.bool true) => id :: ids
  | (Call.deallocate id, _) => ids.filter (fun x => x ≠ id)
  | (Call.clear, _) => []
  | _ => ids

/-- The ids in use after a trace of calls on a new provider. -/
def outstanding (trace : List (Call × Ret)) : List Int :=
  trace.foldl outstandingStep []

end DefaultMessageIdProvider

/-! ## The client operations that use the provider

The client class and the topic validation are modelled from the written
specification of the client; the provider above is the one of the sources. -/

namespace MqttClient

/-- Modelled from the spec: the split of a topic filter into its `/`-delimited
levels, for the topic filter validation, whose code is not among the sources
("Multi-level filters are `/`-delimited"). -/
def splitLevels : List Char → List (List Char)
  | [] => [[]]
  | c :: cs =>
    if c = '/' then [] :: splitLevels cs
    else
      match splitLevels cs with
      | [] => [[c]]
      | l :: ls => (c :: l) :: ls

/-- Modelled from the spec: the validation of the levels of a topic filter, whose
code is not among the sources.  "A filter is invalid if a `#` wildcard appears
anywhere but as the last character of the last level, or if a `+` wildcard
occupies a level together with other characters"; "each level is validated
independently"; and `event#` fails validation, so a level holding `#` has to be
`#` alone. -/
def validateLevels : List (List Char) → Bool
  | [] => true
  | l :: ls =>
    if '#' ∈ l then decide (l = ['#'] ∧ ls = [])
    else if '+' ∈ l then decide (l = ['+']) && validateLevels ls
    else validateLevels ls

/-- Modelled from the spec: the topic filter validation, given there as a pure
predicate on a filter; its code is not among the sources. -/
def validateTopic (topic : String) : Bool := validateLevels (splitLevels topic.toList)

/-- Modelled from the spec: the errors the client passes to callbacks (the client
code is not among the sources): an error with a message, and the two validation
errors of `subscribe`. -/
inductive ClientError where
  | error (message : String)
  | invalidTopic (topic : String)
  | emptyTopicList
deriving DecidableEq, Repr

/-- Modelled from the spec: validation of the filter list of `subscribe` (its code
is not among the sources): "An empty filter list is rejected as a validation
error", and so is a list with an invalid filter. -/
def validateTopics (filters : List String) : Option ClientError :=
  if filters = [] then some ClientError.emptyTopicList
  else
    match filters.find? (fun t => !validateTopic t) with
    | some t => some (ClientError.invalidTopic t)
    | none => none

/-- Modelled from the spec: the packets the client writes (the packet codec is an
external collaborator; the client code is not among the sources). -/
inductive Packet where
  | publish (messageId : Option Int) (qos : Nat) (topic : String) (payload : String)
  | subscribe (messageId : Int) (filters : List String)
deriving DecidableEq, Repr

/-- Modelled from the spec: the message id a packet carries. -/
def Packet.messageId : Packet → Option Int
  | Packet.publish messageId _ _ _ => messageId
  | Packet.subscribe messageId _ => some messageId

/-- Modelled from the spec: the lifecycle notifications of the client. -/
inductive Event where
  | connect
  | offline
  | close
  | endEvent
deriving DecidableEq, Repr

/-- Modelled from the spec: what the body of a listener does, as far as the claims
need it: it calls `end()` on the client. -/
inductive ListenerCall where
  | callEnd
deriving DecidableEq, Repr

/-- Modelled from the spec: the session object of the client, whose code is not
among the sources.  Callbacks are named by numbers; `completed` records the
callbacks invoked so far, each with its error argument.  `outgoing` is the
in-memory table of in-flight entries, `outgoingStore` the outgoing Store,
`queue` the OutgoingQueue, `sent` the packets written to the transport,
`messageIdToTopic` the Resubscribe Map, `subscriptions` the active filters,
`endListeners` the one-shot listeners of the `end` notification. -/
structure Client where
  messageIdProvider : DefaultMessageIdProvider
  connected : Bool
  disconnecting : Bool
  queueQoSZero : Bool
  outgoing : List (Int × Nat)
  outgoingStore : List Packet
  queue : List (Packet × Nat)
  sent : List Packet
  completed : List (Nat × Option ClientError)
  messageIdToTopic : List (Int × List String)
  subscriptions : List String
  events : List Event
  endListeners : List (List ListenerCall)
deriving DecidableEq, Repr

/-- Modelled from the spec: a client right after creation, not yet connected,
with the given provider; the client code is not among the sources. -/
def newClient (provider : DefaultMessageIdProvider) : Client :=
  { messageIdProvider := provider, connected := false, disconnecting := false,
    queueQoSZero := true, outgoing := [], outgoingStore := [], queue := [], sent := [],
    completed := [], messageIdToTopic := [], subscriptions := [], events := [],
    endListeners := [] }

/-- Modelled from the spec: `publish(topic, payload, options, callback)`, whose
code is not among the sources.  QoS 0: sent at once when connected, enqueued when
offline with `queueQoSZero`, else dropped with the callback invoked.  QoS 1/2:
"allocate a message id, construct the in-flight entry, persist to outgoing Store,
then send if connected"; when offline the publish waits in the outgoing Store
alone and is written when the Store is replayed on connection.  It is not put in
the queue: the test `should queue qos != 0 messages` finds only the subscribe
and the unsubscribe in the queue after two offline publishes with QoS 1 and 2. -/
def publish (c : Client) (topic payload : String) (qos : Nat) (cb : Nat) : Client :=
  if qos = 0 then
    let packet := Packet.publish none 0 topic payload
    if c.connected then
      { c with sent := c.sent ++ [packet], completed := c.completed ++ [(cb, none)] }
    else if c.queueQoSZero then { c with queue := c.queue ++ [(packet, cb)] }
    else { c with completed := c.completed ++ [(cb, none)] }
  else
    let r := DefaultMessageIdProvider.allocate c.messageIdProvider
    let packet := Packet.publish (some r.1) qos topic payload
    let c1 : Client :=
      { c with messageIdProvider := r.2, outgoing := c.outgoing ++ [(r.1, cb)],
               outgoingStore := c.outgoingStore ++ [packet] }
    if c.connected then { c1 with sent := c1.sent ++ [packet] } else c1

/-- Modelled from the spec: `getLastMessageId()`, whose code is not among the
sources: the id the provider allocated last. -/
def getLastMessageId (c : Client) : Int :=
  DefaultMessageIdProvider.getLastAllocated c.messageIdProvider

/-- Modelled from the spec: `removeOutgoingMessage(messageId)`, whose code is not
among the sources: the explicit cancellation of an in-flight entry.  The entry
leaves the in-memory table and the Store, and its callback is completed with the
error "Message removed". -/
def removeOutgoingMessage (c : Client) (messageId : Int) : Client :=
  { c with
    outgoing := c.outgoing.filter (fun e => e.1 ≠ messageId),
    outgoingStore := c.outgoingStore.filter (fun pk => pk.messageId ≠ some messageId),
    completed := c.completed ++
      ((c.outgoing.filter (fun e => e.1 = messageId)).map
        (fun e => (e.2, some (ClientError.error "Message removed")))) }

/-- Modelled from the spec: an unexpected close of the transport, in the client
whose code is not among the sources: from `connected` to `offline`, with the
offline notification once per transition. -/
def onClose (c : Client) : Client :=
  if c.connected then
    { c with connected := false, events := c.events ++ [Event.close, Event.offline] }
  else c

/-- Modelled from the spec: entering `connected`, in the client whose code is not
among the sources: "flush the OutgoingQueue in FIFO order", then "replay any
outgoing in-flight entries found in the Store ... in their original order".  The
callbacks of flushed QoS 0 publishes complete. -/
def onConnect (c : Client) : Client :=
  { c with
    connected := true,
    sent := c.sent ++ c.queue.map Prod.fst ++ c.outgoingStore,
    queue := [],
    completed := c.completed ++
      ((c.queue.filter (fun e => e.1.messageId = none)).map (fun e => (e.2, none))),
    events := c.events ++ [Event.connect] }

/-- Modelled from the spec: one reconnect, a close of the transport followed by a
new connection. -/
def reconnectCycle (c : Client) : Client := onConnect (onClose c)

/-- Modelled from the spec: `subscribe(topicOrList, options, callback)` on a list
of filters, whose code is not among the sources.  "Validates every topic filter;
on any invalid filter, synchronously fails with a validation error and the
callback is invoked with it — no packet is sent"; filters already active are
dropped, and with none left the callback completes with an empty grant list;
else it "allocates a message id, records pending topics in the Resubscribe Map,
sends or enqueues". -/
def subscribe (c : Client) (filters : List String) (cb : Nat) : Client :=
  match validateTopics filters with
  | some err => { c with completed := c.completed ++ [(cb, some err)] }
  | none =>
    let pending := filters.filter (fun t => t ∉ c.subscriptions)
    if pending = [] then { c with completed := c.completed ++ [(cb, none)] }
    else
      let r := DefaultMessageIdProvider.allocate c.messageIdProvider
      let packet := Packet.subscribe r.1 pending
      let c1 : Client :=
        { c with messageIdProvider := r.2, outgoing := c.outgoing ++ [(r.1, cb)],
                 messageIdToTopic := c.messageIdToTopic ++ [(r.1, pending)] }
      if c.connected then { c1 with sent := c1.sent ++ [packet] }
      else { c1 with queue := c1.queue ++ [(packet, cb)] }

/-- Modelled from the spec: `end()`, whose code is not among the sources; the
returned client stands for the returned `this`.  "Idempotent — calling twice
returns the same pending result without duplicate side effects.  Marks the
session disconnecting"; then the session is disconnected and the terminal
notification is emitted, which runs the one-shot `end` listeners.  A listener may
call `end()` again; `depth` bounds the nesting of such calls. -/
def endClient : Nat → Client → Client
  | 0, c => c
  | depth + 1, c =>
    if c.disconnecting then c
    else
      let c1 : Client :=
        { c with disconnecting := true, connected := false,
                 events := c.events ++ [Event.endEvent], endListeners := [] }
      c.endListeners.foldl
        (fun acc listener => listener.foldl (fun acc2 _ => endClient depth acc2) acc) c1

/-- A connected client with one listener of the `end` notification, whose body
calls `end()` again. -/
def clientWithEndListener : Client :=
  { (newClient ⟨1⟩) with connected := true, endListeners := [[ListenerCall.callEnd]] }

/-- A level of a topic filter is allowed when it is free of wildcards, or is `+`
alone, or is `#` alone with no level after it (`post` holds the levels after). -/
def levelAllowed (l : List Char) (post : List (List Char)) : Prop :=
  ('+' ∉ l ∧ '#' ∉ l) ∨ l = ['+'] ∨ (l = ['#'] ∧ post = [])

/-- A well-formed topic filter: each of its `/`-delimited levels is allowed. -/
def wellFormedFilter (topic : String) : Prop :=
  ∀ (pre : List (List Char)) (l : List Char) (post : List (List Char)),
    splitLevels topic.toList = pre ++ l :: post → levelAllowed l post

/-- A malformed topic filter: in some level `#` appears and the level is not `#`
alone in last place, or `+` appears together with other characters. -/
def malformedFilter (topic : String) : Prop :=
  ∃ (pre : List (List Char)) (l : List Char) (post : List (List Char)),
    splitLevels topic.toList = pre ++ l :: post ∧
      (('#' ∈ l ∧ ¬ (l = ['#'] ∧ post = [])) ∨ ('+' ∈ l ∧ l ≠ ['+']))

end MqttClient

namespace DefaultMessageIdProvider

/-! ## Evaluation on concrete inputs -/

example : constructor 0 = ⟨1⟩ := by decide
example : (allocateN ⟨65534⟩ 4).1 = [65534, 65535, 1, 2] := by decide
example : getLastAllocated (allocate ⟨65535⟩).2 = 65535 := by decide
example : (runCalls ⟨7⟩ [Call.allocate, Call.deallocate 7, Call.register 7, Call.allocate]).1
    = [(Call.allocate, Ret.num 7), (Call.deallocate 7, Ret.undefined),
       (Call.register 7, Ret.bool true), (Call.allocate, Ret.num 8)] := by decide

/-! ## Binary64 rounding of integers -/

theorem bitLengthAux_le (fuel n k : Nat) (h : n < 2 ^ k) : bitLengthAux fuel n ≤ k := by
  induction fuel generalizing n k with
  | zero => simp [bitLengthAux]
  | succ fuel ih =>
    unfold bitLengthAux
    split
    · exact Nat.zero_le _
    · rename_i hn
      cases k with
      | zero =>
        rw [pow_zero] at h
        omega
      | succ k =>
        have h2 : n / 2 < 2 ^ k := by
          rw [pow_succ] at h
          omega
        have := ih (n / 2) k h2
        omega

theorem bitLength_le (n k : Nat) (h : n < 2 ^ k) : bitLength n ≤ k :=
  bitLengthAux_le n n k h

theorem bitLengthAux_ge (fuel n k : Nat) (h : 2 ^ k ≤ n) (hf : k + 1 ≤ fuel) :
    k + 1 ≤ bitLengthAux fuel n := by
  induction fuel generalizing n k with
  | zero => omega
  | succ fuel ih =>
    have hpos : 0 < 2 ^ k := Nat.pow_pos (by decide)
    unfold bitLengthAux
    rw [if_neg (by omega)]
    cases k with
    | zero => omega
    | succ k =>
      have h2 : 2 ^ k ≤ n / 2 := by
        rw [pow_succ] at h
        omega
      have := ih (n / 2) k h2 (by omega)
      omega

theorem bitLength_ge (n k : Nat) (h : 2 ^ k ≤ n) : k + 1 ≤ bitLength n := by
  have hk : k < 2 ^ k := Nat.lt_two_pow k
  exact bitLengthAux_ge n n k h (by omega)

theorem f64Round_of_dvd (n : Nat) (h : 2 ^ (bitLength n - 53) ∣ n) : f64Round n = n := by
  have hpos : 0 < 2 ^ (bitLength n - 53) := Nat.pow_pos (by decide)
  have hmod : n % 2 ^ (bitLength n - 53) = 0 := Nat.mod_eq_zero_of_dvd h
  unfold f64Round
  dsimp only
  rw [hmod, if_neg (by omega)]
  exact Nat.div_mul_cancel h

theorem f64Round_of_lt (n : Nat) (h : n < 2 ^ 53) : f64Round n = n := by
  apply f64Round_of_dvd
  have hle := bitLength_le n 53 h
  have hs : bitLength n - 53 = 0 := by omega
  rw [hs, pow_zero]
  exact one_dvd n

theorem f64Round_ge_of_large (n : Nat) (h : 2 ^ 53 ≤ n) : 2 ^ 53 ≤ f64Round n := by
  have hL := bitLength_ge n 53 h
  have hpos : 0 < 2 ^ (bitLength n - 53) := Nat.pow_pos (by decide)
  have hn : 2 ^ (bitLength n - 1) ≤ n := by
    by_contra hlt
    have := bitLength_le n (bitLength n - 1) (by omega)
    omega
  have hsplit : 2 ^ (bitLength n - 1) = 2 ^ 52 * 2 ^ (bitLength n - 53) := by
    rw [← pow_add]
    congr 1
    omega
  have hq : 2 ^ 52 ≤ n / 2 ^ (bitLength n - 53) := by
    rw [Nat.le_div_iff_mul_le hpos, ← hsplit]
    exact hn
  have hs2 : 2 ^ 1 ≤ 2 ^ (bitLength n - 53) :=
    Nat.pow_le_pow_right (by decide) (by omega)
  have hlow : 2 ^ 53 ≤ n / 2 ^ (bitLength n - 53) * 2 ^ (bitLength n - 53) :=
    calc 2 ^ 53 = 2 ^ 52 * 2 ^ 1 := by decide
      _ ≤ n / 2 ^ (bitLength n - 53) * 2 ^ (bitLength n - 53) := Nat.mul_le_mul hq hs2
  have hup : n / 2 ^ (bitLength n - 53) * 2 ^ (bitLength n - 53) ≤
      (n / 2 ^ (bitLength n - 53) + 1) * 2 ^ (bitLength n - 53) :=
    Nat.mul_le_mul_right _ (Nat.le_succ _)
  unfold f64Round
  dsimp only
  split
  · exact le_trans hlow hup
  · exact hlow

theorem f64OfInt_of_small (x : Int) (hlo : -(2 : Int) ^ 53 < x) (hhi : x < 2 ^ 53) :
    f64OfInt x = x := by
  unfold f64OfInt
  split
  · rw [f64Round_of_lt x.toNat (by omega)]
    omega
  · rw [f64Round_of_lt (-x).toNat (by omega)]
    omega

theorem f64OfInt_ge (x : Int) (h : 65537 ≤ x) : 65537 ≤ f64OfInt x := by
  unfold f64OfInt
  rw [if_pos (by omega)]
  by_cases hs : x.toNat < 2 ^ 53
  · rw [f64Round_of_lt x.toNat hs]
    omega
  · have := f64Round_ge_of_large x.toNat (by omega)
    omega

/-! ## Allocation -/

theorem allocate_fst (p : DefaultMessageIdProvider) : (allocate p).1 = p.nextId := by
  unfold allocate
  dsimp only
  split <;> rfl

theorem allocate_snd_f64 (p : DefaultMessageIdProvider) :
    (allocate p).2.nextId =
      if f64OfInt (p.nextId + 1) = 65536 then 1 else f64OfInt (p.nextId + 1) := by
  unfold allocate
  dsimp only
  split <;> rfl

theorem allocate_snd (p : DefaultMessageIdProvider) (hlo : -(2 : Int) ^ 53 < p.nextId + 1)
    (hhi : p.nextId + 1 < 2 ^ 53) :
    (allocate p).2.nextId = if p.nextId + 1 = 65536 then 1 else p.nextId + 1 := by
  rw [allocate_snd_f64, f64OfInt_of_small _ hlo hhi]

theorem getLastAllocated_eq (p : DefaultMessageIdProvider)
    (hlo : -(2 : Int) ^ 53 < p.nextId - 1) (hhi : p.nextId - 1 < 2 ^ 53) :
    getLastAllocated p = if p.nextId = 1 then 65535 else p.nextId - 1 := by
  unfold getLastAllocated
  rw [f64OfInt_of_small _ hlo hhi]

theorem allocate_inRange (p : DefaultMessageIdProvider) (h : inRange p) :
    inRange (allocate p).2 := by
  obtain ⟨h1, h2⟩ := h
  unfold inRange
  rw [allocate_snd p (by omega) (by omega)]
  split <;> omega

/-- C1: in a state with `1 <= nextId <= 65535`, `allocate()` returns an id with
`1 <= id <= 65535` (it fits in 16 unsigned bits and is not 0), and the id is the
value `nextId` held before the call. -/
theorem allocate_returns_nextId (p : DefaultMessageIdProvider) (h : inRange p) :
    1 ≤ (allocate p).1 ∧ (allocate p).1 ≤ 65535 ∧ (allocate p).1 < 2 ^ 16 ∧
      (allocate p).1 ≠ 0 ∧ (allocate p).1 = p.nextId := by
  obtain ⟨h1, h2⟩ := h
  rw [allocate_fst]
  refine ⟨h1, h2, ?_, ?_, rfl⟩ <;> omega

/-- Witness for C1 at the state `nextId = 65535`. -/
theorem allocate_returns_nextId_witness :
    inRange ⟨65535⟩ ∧ (allocate ⟨65535⟩).1 = 65535 :=
  ⟨by decide, (allocate_returns_nextId ⟨65535⟩ (by decide)).2.2.2.2⟩

/-! ## The closed form of the allocation sequence -/

theorem allocateN_snd_nextId (n : Nat) (p : DefaultMessageIdProvider) (h : inRange p) :
    (allocateN p n).2.nextId = (p.nextId - 1 + n) % 65535 + 1 := by
  induction n generalizing p with
  | zero =>
    obtain ⟨h1, h2⟩ := h
    simp only [allocateN]
    omega
  | succ n ih =>
    have hin := allocate_inRange p h
    obtain ⟨h1, h2⟩ := h
    have hstep := allocate_snd p (by omega) (by omega)
    simp only [allocateN]
    rw [ih _ hin, hstep]
    split <;> push_cast <;> omega

theorem allocateN_snd_inRange (n : Nat) (p : DefaultMessageIdProvider) (h : inRange p) :
    inRange (allocateN p n).2 := by
  unfold inRange
  rw [allocateN_snd_nextId n p h]
  omega

theorem allocateN_fst (n : Nat) (p : DefaultMessageIdProvider) (h : inRange p) :
    (allocateN p n).1 =
      (List.range n).map (fun k : Nat => (p.nextId - 1 + (k : Int)) % 65535 + 1) := by
  induction n generalizing p with
  | zero => simp [allocateN]
  | succ n ih =>
    have hin := allocate_inRange p h
    obtain ⟨h1, h2⟩ := h
    have hstep := allocate_snd p (by omega) (by omega)
    simp only [allocateN]
    rw [ih _ hin, List.range_succ_eq_map, List.map_cons, List.map_map, allocate_fst]
    congr 1
    · push_cast
      omega
    · apply List.map_congr_left
      intro k _
      simp only [Function.comp_apply]
      rw [hstep]
      split <;> push_cast <;> omega

theorem allocateN_length (n : Nat) (p : DefaultMessageIdProvider) :
    (allocateN p n).1.length = n := by
  induction n generalizing p with
  | zero => simp [allocateN]
  | succ n ih => simp [allocateN, ih]

theorem allocateN_getElem (p : DefaultMessageIdProvider) (h : inRange p) (m n : Nat)
    (hn : n < m) : (allocateN p m).1[n]? = some ((p.nextId - 1 + (n : Int)) % 65535 + 1) := by
  rw [allocateN_fst m p h, List.getElem?_map, List.getElem?_range hn]
  rfl

theorem allocateN_nodup (p : DefaultMessageIdProvider) (h : inRange p) (k : Nat)
    (hk : k ≤ 65535) : (allocateN p k).1.Nodup := by
  rw [allocateN_fst k p h]
  apply List.Nodup.map_on _ (List.nodup_range k)
  intro a ha b hb hab
  rw [List.mem_range] at ha hb
  obtain ⟨h1, h2⟩ := h
  omega

theorem allocateN_mem (p : DefaultMessageIdProvider) (h : inRange p) (x : Int) :
    x ∈ (allocateN p 65535).1 ↔ 1 ≤ x ∧ x ≤ 65535 := by
  rw [allocateN_fst 65535 p h, List.mem_map]
  obtain ⟨h1, h2⟩ := h
  constructor
  · rintro ⟨k, _, rfl⟩
    omega
  · rintro ⟨hx1, hx2⟩
    refine ⟨((x - p.nextId) % 65535).toNat, ?_, ?_⟩
    · rw [List.mem_range]
      omega
    · have hk : (((x - p.nextId) % 65535).toNat : Int) = (x - p.nextId) % 65535 :=
        Int.toNat_of_nonneg (Int.emod_nonneg _ (by decide))
      rw [hk]
      omega

/-- C3: wraparound.  From the state `nextId = 65535`, three consecutive
`allocate()` calls return 65535, then 1, then 2; after the first call `nextId`
is 1; and no later call returns 0 or 65536. -/
theorem wraparound_from_65535 :
    (allocateN ⟨65535⟩ 3).1 = [65535, 1, 2] ∧ (allocate ⟨65535⟩).2.nextId = 1 ∧
      ∀ n : Nat, (allocate (allocateN ⟨65535⟩ n).2).1 ≠ 0 ∧
        (allocate (allocateN ⟨65535⟩ n).2).1 ≠ 65536 := by
  refine ⟨by decide, by decide, ?_⟩
  intro n
  have h := allocateN_snd_inRange n ⟨65535⟩ (by decide)
  obtain ⟨h1, h2⟩ := h
  rw [allocate_fst]
  omega

/-- C4: from a state with `1 <= nextId <= 65535`, the ids returned by 65535
consecutive `allocate()` calls are pairwise distinct, none is 0, and they are
exactly the numbers 1, ..., 65535; the ids of any `k <= 65535` consecutive calls
are pairwise distinct. -/
theorem allocate_full_cycle (p : DefaultMessageIdProvider) (h : inRange p) :
    (allocateN p 65535).1.length = 65535 ∧ (allocateN p 65535).1.Nodup ∧
      (∀ x ∈ (allocateN p 65535).1, x ≠ 0) ∧
      (∀ x : Int, x ∈ (allocateN p 65535).1 ↔ 1 ≤ x ∧ x ≤ 65535) ∧
      ∀ k : Nat, k ≤ 65535 → (allocateN p k).1.Nodup := by
  refine ⟨allocateN_length _ _, allocateN_nodup p h 65535 (le_refl _), ?_,
    allocateN_mem p h, fun k hk => allocateN_nodup p h k hk⟩
  intro x hx
  have := (allocateN_mem p h x).1 hx
  omega

/-- Witness for C4 at the seed 65535: four successive ids are pairwise distinct. -/
theorem allocate_full_cycle_witness :
    inRange ⟨65535⟩ ∧ (allocateN ⟨65535⟩ 4).1.Nodup :=
  ⟨by decide, (allocate_full_cycle ⟨65535⟩ (by decide)).2.2.2.2 4 (by decide)⟩

/-- C5: allocation wraps modulo 65535 within [1,65535].  For a seed `s` with
`1 <= s <= 65535` and every `n`, the `(n+1)`-th id returned by `allocate()` on a
provider whose `nextId` started at `s` is `((s - 1 + n) mod 65535) + 1`. -/
theorem allocate_nth_closed_form (s : Int) (h1 : 1 ≤ s) (h2 : s ≤ 65535) (n : Nat) :
    (allocateN ⟨s⟩ (n + 1)).1[n]? = some ((s - 1 + (n : Int)) % 65535 + 1) ∧
      (allocate (allocateN ⟨s⟩ n).2).1 = (s - 1 + (n : Int)) % 65535 + 1 := by
  have h : inRange ⟨s⟩ := ⟨h1, h2⟩
  refine ⟨allocateN_getElem ⟨s⟩ h (n + 1) n (Nat.lt_succ_self n), ?_⟩
  rw [allocate_fst, allocateN_snd_nextId n ⟨s⟩ h]

/-- Witness for C5: with seed 65534 the fourth id (n = 3) is 2. -/
theorem allocate_nth_closed_form_witness :
    (1 : Int) ≤ 65534 ∧ (65534 : Int) ≤ 65535 ∧
      (allocate (allocateN ⟨65534⟩ 3).2).1 = (65534 - 1 + ((3 : Nat) : Int)) % 65535 + 1 :=
  ⟨by decide, by decide, (allocate_nth_closed_form 65534 (by decide) (by decide) 3).2⟩

/-- C6: in a state with `1 <= nextId <= 65535`, `getLastAllocated()` called right
after `allocate()` returns the id that `allocate()` returned. -/
theorem getLastAllocated_after_allocate (p : DefaultMessageIdProvider) (h : inRange p) :
    getLastAllocated (allocate p).2 = (allocate p).1 := by
  obtain ⟨h1, h2⟩ := h
  have hs := allocate_snd p (by omega) (by omega)
  have hb : 1 ≤ (allocate p).2.nextId ∧ (allocate p).2.nextId ≤ 65535 := by
    rw [hs]
    split_ifs <;> omega
  rw [getLastAllocated_eq _ (by omega) (by omega), allocate_fst]
  split_ifs at hs ⊢ <;> omega

/-- Witness for C6 in the wrap case: the id is 65535 and `nextId` has become 1. -/
theorem getLastAllocated_after_allocate_witness :
    inRange ⟨65535⟩ ∧ (allocate ⟨65535⟩).2.nextId = 1 ∧
      getLastAllocated (allocate ⟨65535⟩).2 = (allocate ⟨65535⟩).1 :=
  ⟨by decide, by decide, getLastAllocated_after_allocate ⟨65535⟩ (by decide)⟩

/-! ## The constructor -/

theorem f64Round_le (n b e : Nat) (hn : n < b * 2 ^ e) (hbits : bitLength n - 53 ≤ e) :
    f64Round n ≤ b * 2 ^ e := by
  have hpos : 0 < 2 ^ (bitLength n - 53) := Nat.pow_pos (by decide)
  have hsplit : b * 2 ^ e = (b * 2 ^ (e - (bitLength n - 53))) * 2 ^ (bitLength n - 53) := by
    rw [Nat.mul_assoc, ← pow_add, Nat.sub_add_cancel hbits]
  have hq : n / 2 ^ (bitLength n - 53) < b * 2 ^ (e - (bitLength n - 53)) := by
    rw [Nat.div_lt_iff_lt_mul hpos, ← hsplit]
    exact hn
  have hup : (n / 2 ^ (bitLength n - 53) + 1) * 2 ^ (bitLength n - 53) ≤ b * 2 ^ e := by
    rw [hsplit]
    exact Nat.mul_le_mul_right _ hq
  have hdown : n / 2 ^ (bitLength n - 53) * 2 ^ (bitLength n - 53) ≤
      (n / 2 ^ (bitLength n - 53) + 1) * 2 ^ (bitLength n - 53) :=
    Nat.mul_le_mul_right _ (Nat.le_succ _)
  unfold f64Round
  dsimp only
  split
  · exact hup
  · exact le_trans hdown hup

theorem mathFloor_mul_le (random : Nat) (h : random < f64One) :
    mathFloor (f64MulNat random 65535) ≤ 65535 := by
  unfold f64One at h
  have hn : random * 65535 < 65535 * 2 ^ 1074 := by omega
  have hlt : random * 65535 < 2 ^ 1090 := by omega
  have hbits : bitLength (random * 65535) - 53 ≤ 1074 := by
    have := bitLength_le _ _ hlt
    omega
  have hr := f64Round_le (random * 65535) 65535 1074 hn hbits
  have hdiv : f64Round (random * 65535) / 2 ^ 1074 ≤ 65535 :=
    Nat.div_le_of_le_mul (le_of_le_of_eq hr (Nat.mul_comm _ _))
  unfold mathFloor f64MulNat f64One
  exact_mod_cast hdiv

/-- C8: the constructor starts from a seed in [1,65535], never 0.  For every
value `r` of `Math.random()` with `0 <= r < 1` (here in units of `2^-1074`), the
initial `nextId = max(1, floor(r * 65535))` satisfies `1 <= nextId <= 65535`. -/
theorem constructor_seed_inRange (random : Nat) (h : random < f64One) :
    1 ≤ (constructor random).nextId ∧ (constructor random).nextId ≤ 65535 ∧
      (constructor random).nextId ≠ 0 := by
  have hf := mathFloor_mul_le random h
  have hlow : (1 : Int) ≤ max 1 (mathFloor (f64MulNat random 65535)) := le_max_left _ _
  have hhigh : max 1 (mathFloor (f64MulNat random 65535)) ≤ 65535 := max_le (by decide) hf
  have hc : (constructor random).nextId = max 1 (mathFloor (f64MulNat random 65535)) := rfl
  rw [hc]
  refine ⟨hlow, hhigh, ?_⟩
  omega

/-- Witness for C8 at the draw `r = 1/2`, which gives the seed 32767. -/
theorem constructor_seed_inRange_witness :
    2 ^ 1073 < f64One ∧ (constructor (2 ^ 1073)).nextId = 32767 ∧
      1 ≤ (constructor (2 ^ 1073)).nextId ∧ (constructor (2 ^ 1073)).nextId ≤ 65535 :=
  ⟨by decide, by decide, (constructor_seed_inRange (2 ^ 1073) (by decide)).1,
    (constructor_seed_inRange (2 ^ 1073) (by decide)).2.1⟩

/-! ## The state invariant and call sequences -/

theorem call_snd (p : DefaultMessageIdProvider) (c : Call) :
    (call p c).2 = if c = Call.allocate then (allocate p).2 else p := by
  cases c <;> simp [call, register, deallocate, clear]

theorem call_inRange (p : DefaultMessageIdProvider) (c : Call) (h : inRange p) :
    inRange (call p c).2 := by
  rw [call_snd]
  split
  · exact allocate_inRange p h
  · exact h

theorem constructor_inRange (random : Nat) (h : isRandomDraw random) :
    inRange (constructor random) :=
  ⟨(constructor_seed_inRange random h.1).1, (constructor_seed_inRange random h.1).2.1⟩

theorem reachable_inRange (p : DefaultMessageIdProvider) (h : Reachable p) : inRange p := by
  induction h with
  | init random hr => exact constructor_inRange random hr
  | step p c _ ih => exact call_inRange p c ih

theorem runCalls_snd (calls : List Call) (p : DefaultMessageIdProvider) :
    (runCalls p calls).2 = (allocateN p (calls.count Call.allocate)).2 := by
  induction calls generalizing p with
  | nil => rfl
  | cons c cs ih =>
    simp only [runCalls]
    rw [ih, call_snd]
    by_cases hc : c = Call.allocate
    · subst hc
      rw [List.count_cons_self, if_pos rfl]
      rfl
    · rw [List.count_cons_of_ne (Ne.symm hc), if_neg hc]

theorem runCalls_fst_calls (calls : List Call) (p : DefaultMessageIdProvider) :
    (runCalls p calls).1.map Prod.fst = calls := by
  induction calls generalizing p with
  | nil => rfl
  | cons c cs ih => simp [runCalls, ih]

theorem outstanding_keeps (x : Int) (t : List (Call × Ret)) (ids : List Int)
    (hx : x ∈ ids) (ht : ∀ e ∈ t, e.1 = Call.allocate) :
    x ∈ t.foldl outstandingStep ids := by
  induction t generalizing ids with
  | nil => exact hx
  | cons e t ih =>
    rw [List.foldl_cons]
    apply ih
    · obtain ⟨c, r⟩ := e
      have hc : c = Call.allocate := ht (c, r) (List.mem_cons_self _ _)
      subst hc
      cases r <;> simp [outstandingStep, hx]
    · intro e2 he2
      exact ht e2 (List.mem_cons_of_mem _ he2)

/-- C9: the state invariant `1 <= nextId <= 65535` holds after construction, is
preserved by every method (allocate, getLastAllocated, register, deallocate,
clear), and so holds in every state reached by a finite sequence of calls. -/
theorem nextId_invariant :
    (∀ random : Nat, isRandomDraw random → inRange (constructor random)) ∧
      (∀ (p : DefaultMessageIdProvider) (c : Call), inRange p → inRange (call p c).2) ∧
      (∀ (p : DefaultMessageIdProvider) (id : Int), inRange p →
        inRange (allocate p).2 ∧ inRange (register p id).2 ∧ inRange (deallocate p id) ∧
          inRange (clear p)) ∧
      (∀ (random : Nat) (calls : List Call), isRandomDraw random →
        inRange (runCalls (constructor random) calls).2) ∧
      ∀ p : DefaultMessageIdProvider, Reachable p → inRange p := by
  refine ⟨constructor_inRange, call_inRange, ?_, ?_, reachable_inRange⟩
  · intro p id h
    exact ⟨allocate_inRange p h, h, h, h⟩
  · intro random calls h
    rw [runCalls_snd]
    exact allocateN_snd_inRange _ _ (constructor_inRange random h)

/-- Witness for C9: the draw `r = 0`, then a call of `allocate()`. -/
theorem nextId_invariant_witness :
    isRandomDraw 0 ∧ inRange (constructor 0) ∧
      inRange (call (constructor 0) Call.allocate).2 ∧
      Reachable (call (constructor 0) Call.allocate).2 :=
  ⟨by decide, nextId_invariant.1 0 (by decide),
    nextId_invariant.2.1 _ Call.allocate (nextId_invariant.1 0 (by decide)),
    Reachable.step _ _ (Reachable.init 0 (by decide))⟩

/-! ## Reuse of ids -/

theorem runCalls_cons (p : DefaultMessageIdProvider) (c : Call) (cs : List Call) :
    runCalls p (c :: cs) =
      ((c, (call p c).1) :: (runCalls (call p c).2 cs).1, (runCalls (call p c).2 cs).2) :=
  rfl

theorem runCalls_allocate_head (p : DefaultMessageIdProvider) (n : Nat) :
    (runCalls p (List.replicate (n + 1) Call.allocate)).1.head? =
      some (Call.allocate, Ret.num p.nextId) := by
  rw [List.replicate_succ, runCalls_cons, List.head?_cons]
  simp only [call, allocate_fst]

theorem outstanding_allocate_only (p : DefaultMessageIdProvider) (n : Nat) :
    p.nextId ∈ outstanding (runCalls p (List.replicate (n + 1) Call.allocate)).1 := by
  rw [List.replicate_succ, runCalls_cons]
  unfold outstanding
  rw [List.foldl_cons]
  apply outstanding_keeps
  · simp [call, outstandingStep, allocate_fst]
  · intro e he
    have hcalls := runCalls_fst_calls (List.replicate n Call.allocate)
      (call p Call.allocate).2
    have hmem : e.1 ∈ ((runCalls (call p Call.allocate).2
        (List.replicate n Call.allocate)).1.map Prod.fst) := List.mem_map_of_mem _ he
    rw [hcalls] at hmem
    exact List.eq_of_mem_replicate hmem

theorem allocate_after_replicate (p : DefaultMessageIdProvider) (h : inRange p) (n : Nat) :
    (allocate (runCalls p (List.replicate n Call.allocate)).2).1 =
      (p.nextId - 1 + (n : Int)) % 65535 + 1 := by
  rw [allocate_fst, runCalls_snd, List.count_replicate_self, allocateN_snd_nextId _ _ h]

/-- C2, counterexample: on the provider constructed with the draw `r = 0`, the
first of 65536 `allocate()` calls returns 1, no call deallocates it, so 1 is
still in use after 65535 calls, and the 65536-th call returns 1 again. -/
theorem allocate_reuses_outstanding_id :
    isRandomDraw 0 ∧
      (runCalls (constructor 0) (List.replicate 65535 Call.allocate)).1.head? =
        some (Call.allocate, Ret.num 1) ∧
      1 ∈ outstanding (runCalls (constructor 0) (List.replicate 65535 Call.allocate)).1 ∧
      (allocate (runCalls (constructor 0) (List.replicate 65535 Call.allocate)).2).1 = 1 := by
  have hseed : (constructor 0).nextId = 1 := by decide
  have hhead := runCalls_allocate_head (constructor 0) 65534
  have hmem := outstanding_allocate_only (constructor 0) 65534
  have hnext := allocate_after_replicate (constructor 0) (constructor_inRange 0 (by decide)) 65535
  rw [hseed] at hhead hmem hnext
  exact ⟨by decide, hhead, hmem, hnext⟩

/-- C2, amended: on a provider created by the constructor, in any sequence of
calls, `allocate()` does not return the id of an earlier `allocate()` call that
has fewer than 65534 `allocate()` calls between the two, and it returns that id
again when exactly 65534 lie between them; calls of `deallocate` between the two
change neither. -/
theorem allocate_reuse_window (random : Nat) (h : isRandomDraw random)
    (pre mid : List Call) :
    (mid.count Call.allocate < 65534 →
      (allocate (runCalls (constructor random) (pre ++ Call.allocate :: mid)).2).1 ≠
        (allocate (runCalls (constructor random) pre).2).1) ∧
      (mid.count Call.allocate = 65534 →
        (allocate (runCalls (constructor random) (pre ++ Call.allocate :: mid)).2).1 =
          (allocate (runCalls (constructor random) pre).2).1) := by
  have hin := constructor_inRange random h
  rw [allocate_fst, allocate_fst, runCalls_snd, runCalls_snd,
    allocateN_snd_nextId _ _ hin, allocateN_snd_nextId _ _ hin,
    List.count_append, List.count_cons_self]
  obtain ⟨h1, h2⟩ := hin
  push_cast
  constructor <;> intro hm <;> omega

/-- Witness for C2, amended: after `allocate()`, `deallocate(1)`, the next
`allocate()` returns an id other than the first. -/
theorem allocate_reuse_window_witness :
    isRandomDraw 0 ∧
      (allocate (runCalls (constructor 0) ([] ++ Call.allocate :: [Call.deallocate 1])).2).1 ≠
        (allocate (runCalls (constructor 0) []).2).1 :=
  ⟨by decide, (allocate_reuse_window 0 (by decide) [] [Call.deallocate 1]).1 (by decide)⟩

/-- C7, counterexample: the state `nextId = 65535` is reached from the
constructor (draw `r = 1 - 2^-20`, seed 65534, one `allocate()`); there
`allocate()` returns 65535 and the next call returns 1, not 65536. -/
theorem increment_fails_at_wrap :
    isRandomDraw (2 ^ 1074 - 2 ^ 1054) ∧ constructor (2 ^ 1074 - 2 ^ 1054) = ⟨65534⟩ ∧
      Reachable ⟨65535⟩ ∧ (allocate ⟨65535⟩).1 = 65535 ∧
      (allocate (allocate ⟨65535⟩).2).1 = 1 ∧
      (allocate (allocate ⟨65535⟩).2).1 ≠ (allocate ⟨65535⟩).1 + 1 := by
  have hdraw : isRandomDraw (2 ^ 1074 - 2 ^ 1054) := by decide
  have hstate : (call (constructor (2 ^ 1074 - 2 ^ 1054)) Call.allocate).2 = ⟨65535⟩ := by
    decide
  refine ⟨hdraw, by decide, ?_, by decide, by decide, by decide⟩
  rw [← hstate]
  exact Reachable.step _ _ (Reachable.init _ hdraw)

/-- C7, amended: in every state reachable from the constructor, if `allocate()`
returns `currentId`, the next call returns `currentId + 1` when
`currentId < 65535`, and 1 when `currentId = 65535`. -/
theorem allocate_successor (p : DefaultMessageIdProvider) (h : Reachable p) :
    (allocate (allocate p).2).1 =
      if (allocate p).1 = 65535 then 1 else (allocate p).1 + 1 := by
  obtain ⟨h1, h2⟩ := reachable_inRange p h
  rw [allocate_fst, allocate_fst, allocate_snd p (by omega) (by omega)]
  split_ifs <;> omega

/-- Witness for C7, amended: the provider constructed with the draw `r = 0`. -/
theorem allocate_successor_witness :
    Reachable (constructor 0) ∧
      (allocate (allocate (constructor 0)).2).1 =
        if (allocate (constructor 0)).1 = 65535 then 1 else (allocate (constructor 0)).1 + 1 :=
  ⟨Reachable.init 0 (by decide), allocate_successor _ (Reachable.init 0 (by decide))⟩

/-! ## Registration -/

/-- C10, counterexample: `register(id)` returns true for an id that is in use,
both for the id 1 that `allocate()` has just returned and for the id 5 that an
earlier `register(5)` accepted. -/
theorem register_accepts_id_in_use :
    isRandomDraw 0 ∧
      1 ∈ outstanding (runCalls (constructor 0) [Call.allocate]).1 ∧
      (register (runCalls (constructor 0) [Call.allocate]).2 1).1 = true ∧
      5 ∈ outstanding (runCalls (constructor 0) [Call.register 5]).1 ∧
      (runCalls (constructor 0) [Call.register 5, Call.register 5]).1 =
        [(Call.register 5, Ret.bool true), (Call.register 5, Ret.bool true)] := by
  decide

/-- C10, amended: `register(id)` returns true for every id in every state, also
for an id that is in use; it never returns false. -/
theorem register_returns_true (p : DefaultMessageIdProvider) (calls : List Call) (id : Int) :
    (register (runCalls p calls).2 id).1 = true ∧
      (call (runCalls p calls).2 (Call.register id)).1 = Ret.bool true ∧
      (register p id).1 ≠ false := by
  refine ⟨rfl, rfl, ?_⟩
  simp [register]

/-- C11, counterexample: in the state `nextId = 5`, `register(5)` returns true
and the very next `allocate()` returns 5, with no `deallocate` or `clear` between
them. -/
theorem register_then_allocate_same_id :
    inRange ⟨5⟩ ∧
      (runCalls ⟨5⟩ [Call.register 5, Call.allocate]).1 =
        [(Call.register 5, Ret.bool true), (Call.allocate, Ret.num 5)] ∧
      5 ∈ outstanding (runCalls ⟨5⟩ [Call.register 5]).1 := by
  decide

/-- C11, amended: in a state with `1 <= nextId <= 65535` and for an id in
[1,65535], `register(id)` returns true and reserves nothing: after any calls
that follow it, `allocate()` returns `id` exactly when the number of
`allocate()` calls among them is `(id - nextId)` modulo 65535, whether or not
`deallocate(id)` or `clear()` is among them; so `id` is among the next 65535
ids issued. -/
theorem register_does_not_reserve (p : DefaultMessageIdProvider) (h : inRange p) (id : Int)
    (h1 : 1 ≤ id) (h2 : id ≤ 65535) (calls : List Call) :
    (register p id).1 = true ∧
      ((allocate (runCalls (register p id).2 calls).2).1 = id ↔
        ((calls.count Call.allocate : Nat) : Int) % 65535 = (id - p.nextId) % 65535) ∧
      id ∈ (allocateN (register p id).2 65535).1 := by
  have hreg : (register p id).2 = p := rfl
  rw [hreg]
  refine ⟨rfl, ?_, (allocateN_mem p h id).2 ⟨h1, h2⟩⟩
  rw [allocate_fst, runCalls_snd, allocateN_snd_nextId _ _ h]
  obtain ⟨hp1, hp2⟩ := h
  omega

/-- Witness for C11, amended: `register(7)` in the state `nextId = 5`, then two
`allocate()` calls and a `deallocate(7)`: the next `allocate()` returns 7. -/
theorem register_does_not_reserve_witness :
    inRange ⟨5⟩ ∧ (1 : Int) ≤ 7 ∧ (7 : Int) ≤ 65535 ∧
      (allocate (runCalls (register ⟨5⟩ 7).2
        [Call.allocate, Call.deallocate 7, Call.allocate]).2).1 = 7 :=
  ⟨by decide, by decide, by decide,
    ((register_does_not_reserve ⟨5⟩ (by decide) 7 (by decide) (by decide)
      [Call.allocate, Call.deallocate 7, Call.allocate]).2.1).2 (by decide)⟩

/-! ## Frame conditions and periodicity -/

theorem eq_of_nextId_eq (a b : DefaultMessageIdProvider) (h : a.nextId = b.nextId) :
    a = b := by
  cases a
  cases b
  simp only [mk.injEq]
  exact h

theorem count_filter_allocate (calls : List Call) :
    (calls.filter (fun c => decide (c = Call.allocate))).count Call.allocate =
      calls.count Call.allocate := by
  induction calls with
  | nil => rfl
  | cons c cs ih =>
    by_cases hc : c = Call.allocate
    · subst hc
      simp [ih]
    · simp [hc, List.count_cons_of_ne (Ne.symm hc), ih]

/-- C17: `register(id)`, `deallocate(id)`, `clear()` and `getLastAllocated()`
leave the state unchanged in every state and for every argument, and `register`
returns true; so the state after any sequence of calls, and the id returned by
the next `allocate()`, are the same as when only the `allocate()` calls of the
sequence are made; in particular `clear()` does not restart the sequence. -/
theorem noop_methods_frame (p : DefaultMessageIdProvider) (id : Int) (calls : List Call) :
    (register p id).2 = p ∧ (register p id).1 = true ∧ deallocate p id = p ∧ clear p = p ∧
      (call p Call.getLastAllocated).2 = p ∧
      (runCalls p calls).2 =
        (runCalls p (calls.filter (fun c => decide (c = Call.allocate)))).2 ∧
      (allocate (runCalls p calls).2).1 =
        (allocate (runCalls p (calls.filter (fun c => decide (c = Call.allocate)))).2).1 ∧
      (allocate (clear p)).1 = (allocate p).1 ∧
      (allocate (clear (allocate p).2)).1 = (allocate (allocate p).2).1 := by
  have hrun : (runCalls p calls).2 =
      (runCalls p (calls.filter (fun c => decide (c = Call.allocate)))).2 := by
    rw [runCalls_snd, runCalls_snd, count_filter_allocate]
  exact ⟨rfl, rfl, rfl, rfl, rfl, hrun, by rw [hrun], rfl, rfl⟩

/-- C18: the allocation sequence has period exactly 65535.  From a state with
`1 <= nextId <= 65535`, 65535 `allocate()` calls bring the state back to where it
started, `n` calls with `0 < n < 65535` do not, and after any calls of which
65535 are `allocate()` calls (the others, such as `deallocate`, in any
positions) the next `allocate()` returns the id the first one returned. -/
theorem allocate_period (p : DefaultMessageIdProvider) (h : inRange p) :
    (allocateN p 65535).2 = p ∧
      (∀ n : Nat, 0 < n → n < 65535 → (allocateN p n).2.nextId ≠ p.nextId) ∧
      ∀ calls : List Call, calls.count Call.allocate = 65535 →
        (allocate (runCalls p calls).2).1 = (allocate p).1 := by
  have hfull : (allocateN p 65535).2 = p := by
    apply eq_of_nextId_eq
    rw [allocateN_snd_nextId _ _ h]
    obtain ⟨h1, h2⟩ := h
    omega
  refine ⟨hfull, ?_, ?_⟩
  · intro n hn0 hn
    rw [allocateN_snd_nextId _ _ h]
    obtain ⟨h1, h2⟩ := h
    omega
  · intro calls hc
    rw [runCalls_snd, hc, hfull]

/-- Witness for C18: from `nextId = 65535`, one call does not restore the state. -/
theorem allocate_period_witness :
    inRange ⟨65535⟩ ∧ (allocateN ⟨65535⟩ 1).2.nextId ≠ (65535 : Int) :=
  ⟨by decide, (allocate_period ⟨65535⟩ (by decide)).2.1 1 (by decide) (by decide)⟩

/-! ## The last allocated id -/

/-- C19: in a state with `1 <= nextId <= 65535`, `getLastAllocated()` returns a
value in [1,65535], never 0: 65535 when `nextId = 1`, and `nextId - 1` otherwise. -/
theorem getLastAllocated_range (p : DefaultMessageIdProvider) (h : inRange p) :
    1 ≤ getLastAllocated p ∧ getLastAllocated p ≤ 65535 ∧ getLastAllocated p ≠ 0 ∧
      (p.nextId = 1 → getLastAllocated p = 65535) ∧
      (p.nextId ≠ 1 → getLastAllocated p = p.nextId - 1) := by
  obtain ⟨h1, h2⟩ := h
  rw [getLastAllocated_eq p (by omega) (by omega)]
  split_ifs with hc
  · exact ⟨by decide, by decide, by decide, fun _ => rfl, fun hne => absurd hc hne⟩
  · exact ⟨by omega, by omega, by omega, fun he => absurd he hc, fun _ => rfl⟩

/-- Witness for C19 in the state `nextId = 1`. -/
theorem getLastAllocated_range_witness :
    inRange ⟨1⟩ ∧ getLastAllocated ⟨1⟩ = 65535 :=
  ⟨by decide, (getLastAllocated_range ⟨1⟩ (by decide)).2.2.2.1 rfl⟩

theorem runCalls_mem_call (calls : List Call) (p : DefaultMessageIdProvider)
    (e : Call × Ret) (he : e ∈ (runCalls p calls).1) : e.1 ∈ calls := by
  have hmem : e.1 ∈ (runCalls p calls).1.map Prod.fst := List.mem_map_of_mem _ he
  rw [runCalls_fst_calls] at hmem
  exact hmem

/-- C20: on a provider that the constructor has just made, with no `allocate()`
call so far (other calls may have been made), `getLastAllocated()` returns a
number in [1,65535], namely `seed - 1` when the seed is greater than 1 and 65535
when the seed is 1, and no `allocate()` call has returned that number. -/
theorem getLastAllocated_fresh (random : Nat) (h : isRandomDraw random) (calls : List Call)
    (hc : calls.count Call.allocate = 0) :
    getLastAllocated (runCalls (constructor random) calls).2 =
        (if (constructor random).nextId = 1 then 65535 else (constructor random).nextId - 1) ∧
      (1 < (constructor random).nextId →
        getLastAllocated (constructor random) = (constructor random).nextId - 1) ∧
      ((constructor random).nextId = 1 → getLastAllocated (constructor random) = 65535) ∧
      1 ≤ getLastAllocated (constructor random) ∧
      getLastAllocated (constructor random) ≤ 65535 ∧
      (∀ e ∈ (runCalls (constructor random) calls).1, e.1 ≠ Call.allocate) ∧
      getLastAllocated (constructor random) ∉
        outstanding (runCalls (constructor random) []).1 := by
  obtain ⟨h1, h2⟩ := constructor_inRange random h
  have hstate : (runCalls (constructor random) calls).2 = constructor random := by
    rw [runCalls_snd, hc]
    rfl
  rw [hstate]
  have hval : getLastAllocated (constructor random) =
      (if (constructor random).nextId = 1 then 65535 else (constructor random).nextId - 1) :=
    getLastAllocated_eq _ (by omega) (by omega)
  refine ⟨hval, ?_, ?_, ?_, ?_, ?_, ?_⟩
  · intro hgt
    rw [hval, if_neg (by omega)]
  · intro heq
    rw [hval, if_pos heq]
  · rw [hval]
    split_ifs <;> omega
  · rw [hval]
    split_ifs <;> omega
  · intro e he hea
    have hmem := runCalls_mem_call calls _ e he
    rw [hea] at hmem
    exact (List.count_eq_zero.1 hc) hmem
  · simp [runCalls, outstanding]

/-- Witness for C20: the draw `r = 0` gives the seed 1, and `getLastAllocated()`
returns 65535 although nothing was allocated; the draw `r = 1/2` gives the seed
32767 and `getLastAllocated()` returns 32766. -/
theorem getLastAllocated_fresh_witness :
    isRandomDraw 0 ∧ getLastAllocated (runCalls (constructor 0) [Call.clear]).2 = 65535 ∧
      isRandomDraw (2 ^ 1073) ∧ getLastAllocated (constructor (2 ^ 1073)) = 32766 :=
  ⟨by decide, (getLastAllocated_fresh 0 (by decide) [Call.clear] (by decide)).1,
    by decide,
    (getLastAllocated_fresh (2 ^ 1073) (by decide) [] (by decide)).2.1 (by decide)⟩

/-- C21: in a state with `1 <= nextId <= 65535`, the next `allocate()` returns the
cyclic successor of `getLastAllocated()`: `getLastAllocated() + 1` when
`getLastAllocated() < 65535`, and 1 when `getLastAllocated() = 65535`. -/
theorem allocate_succ_of_getLastAllocated (p : DefaultMessageIdProvider) (h : inRange p) :
    (getLastAllocated p < 65535 → (allocate p).1 = getLastAllocated p + 1) ∧
      (getLastAllocated p = 65535 → (allocate p).1 = 1) ∧
      (allocate p).1 = (if getLastAllocated p = 65535 then 1 else getLastAllocated p + 1) := by
  obtain ⟨h1, h2⟩ := h
  rw [allocate_fst, getLastAllocated_eq p (by omega) (by omega)]
  split_ifs with hc <;> refine ⟨?_, ?_, ?_⟩ <;> intros <;> omega

/-- Witness for C21 in the state `nextId = 1`, where `getLastAllocated()` is
65535 and `allocate()` returns 1. -/
theorem allocate_succ_of_getLastAllocated_witness :
    inRange ⟨1⟩ ∧ getLastAllocated ⟨1⟩ = 65535 ∧ (allocate ⟨1⟩).1 = 1 :=
  ⟨by decide, by decide, (allocate_succ_of_getLastAllocated ⟨1⟩ (by decide)).2.1 (by decide)⟩

/-! ## States outside the range -/

theorem allocate_snd_above (p : DefaultMessageIdProvider) (h : 65536 ≤ p.nextId) :
    65537 ≤ (allocate p).2.nextId := by
  have hge := f64OfInt_ge (p.nextId + 1) (by omega)
  rw [allocate_snd_f64, if_neg (by omega)]
  exact hge

theorem allocateN_snd_above (n : Nat) (p : DefaultMessageIdProvider)
    (h : 65536 ≤ p.nextId) : 65536 ≤ (allocateN p n).2.nextId := by
  induction n generalizing p with
  | zero => exact h
  | succ n ih =>
    have hstep := allocate_snd_above p h
    simp only [allocateN]
    exact ih _ (by omega)

theorem allocateN_snd_above_exact (n : Nat) (p : DefaultMessageIdProvider)
    (h : 65536 ≤ p.nextId) (hb : p.nextId + (n : Int) < 2 ^ 53) :
    (allocateN p n).2.nextId = p.nextId + (n : Int) := by
  induction n generalizing p with
  | zero => simp [allocateN]
  | succ n ih =>
    push_cast at hb
    have hstep := allocate_snd p (by omega) (by omega)
    rw [if_neg (by omega)] at hstep
    simp only [allocateN]
    rw [ih _ (by omega) (by omega), hstep]
    push_cast
    omega

/-- C23: the wrap test is an equality and does not repair a state outside the
range.  If `nextId >= 65536`, then after any sequence of calls `nextId` is still
at least 65536, so it is not in [1,65535], and `allocate()` returns a value that
is at least 65536.  This holds with the binary64 rounding of `++`: below `2^53`
each `allocate()` adds 1, and from `2^53` on `nextId` no longer grows by 1 but
stays at least `2^53`. -/
theorem allocate_above_range (p : DefaultMessageIdProvider) (h : 65536 ≤ p.nextId)
    (calls : List Call) :
    65536 ≤ (runCalls p calls).2.nextId ∧ ¬ inRange (runCalls p calls).2 ∧
      65536 ≤ (allocate (runCalls p calls).2).1 ∧
      65537 ≤ (allocate p).2.nextId ∧ (allocate p).2.nextId ≠ 1 ∧
      (p.nextId + ((calls.count Call.allocate : Nat) : Int) < 2 ^ 53 →
        (runCalls p calls).2.nextId = p.nextId + ((calls.count Call.allocate : Nat) : Int)) := by
  have hstate : 65536 ≤ (runCalls p calls).2.nextId := by
    rw [runCalls_snd]
    exact allocateN_snd_above _ _ h
  have hstep := allocate_snd_above p h
  refine ⟨hstate, ?_, ?_, hstep, by omega, ?_⟩
  · intro hin
    obtain ⟨_, h2⟩ := hin
    omega
  · rw [allocate_fst]
    exact hstate
  · intro hb
    rw [runCalls_snd]
    exact allocateN_snd_above_exact _ _ h hb

/-- Witness for C23: from `nextId = 2^53`, where `++` leaves `nextId` unchanged,
after two `allocate()` calls the next one returns a value that is at least
65536; and from `nextId = 65536` two calls lead to 65538. -/
theorem allocate_above_range_witness :
    (65536 : Int) ≤ (DefaultMessageIdProvider.mk (2 ^ 53)).nextId ∧
      (allocate ⟨2 ^ 53⟩).2.nextId = 2 ^ 53 ∧
      65536 ≤ (allocate (runCalls ⟨2 ^ 53⟩ [Call.allocate, Call.allocate]).2).1 ∧
      (runCalls ⟨65536⟩ [Call.allocate, Call.allocate]).2.nextId = 65538 :=
  ⟨by decide, by decide,
    (allocate_above_range ⟨2 ^ 53⟩ (by decide) [Call.allocate, Call.allocate]).2.2.1,
    (allocate_above_range ⟨65536⟩ (by decide) [Call.allocate, Call.allocate]).2.2.2.2.2
      (by decide)⟩

/-- C24: the guard `max(1, ...)` of the constructor keeps the id 0 from being
issued.  In the state `nextId = 0` `allocate()` returns 0; that is the state a
draw with `floor(r * 65535) = 0` would give without the guard, and with the guard
such a draw gives the seed 1; no state reachable from the constructor has
`nextId = 0`, and `allocate()` returns 0 in none of them. -/
theorem guard_excludes_zero :
    (allocate ⟨0⟩).1 = 0 ∧ mathFloor (f64MulNat 0 65535) = 0 ∧
      (∀ random : Nat, mathFloor (f64MulNat random 65535) = 0 →
        (allocate ⟨mathFloor (f64MulNat random 65535)⟩).1 = 0 ∧
          (constructor random).nextId = 1) ∧
      (∀ p : DefaultMessageIdProvider, Reachable p → p.nextId ≠ 0) ∧
      ∀ p : DefaultMessageIdProvider, Reachable p → (allocate p).1 ≠ 0 := by
  refine ⟨by decide, by decide, ?_, ?_, ?_⟩
  · intro random hfloor
    constructor
    · rw [allocate_fst]
      exact hfloor
    · show max 1 (mathFloor (f64MulNat random 65535)) = 1
      rw [hfloor]
      decide
  · intro p hp
    obtain ⟨h1, _⟩ := reachable_inRange p hp
    omega
  · intro p hp
    obtain ⟨h1, _⟩ := reachable_inRange p hp
    rw [allocate_fst]
    omega

/-- Witness for C24: the draw `r = 0` has `floor(r * 65535) = 0`; without the
guard `allocate()` would return 0, with it the seed is 1 and the state is
reachable. -/
theorem guard_excludes_zero_witness :
    (allocate ⟨mathFloor (f64MulNat 0 65535)⟩).1 = 0 ∧ (constructor 0).nextId = 1 ∧
      (constructor 0).nextId ≠ 0 :=
  ⟨(guard_excludes_zero.2.2.1 0 (by decide)).1, (guard_excludes_zero.2.2.1 0 (by decide)).2,
    guard_excludes_zero.2.2.2.1 _ (Reachable.init 0 (by decide))⟩

/-! ## The largest seed -/

theorem f64Round_dvd (n : Nat) : 2 ^ (bitLength n - 53) ∣ f64Round n := by
  unfold f64Round
  dsimp only
  split <;> exact Dvd.intro_left _ rfl

theorem isRandomDraw_le (random : Nat) (h : isRandomDraw random) :
    random ≤ 2 ^ 1074 - 2 ^ 1021 := by
  obtain ⟨hlt, hrep⟩ := h
  unfold f64One at hlt
  by_cases hsmall : random < 2 ^ 1073
  · omega
  · have hle := bitLength_le random 1074 hlt
    have hge := bitLength_ge random 1073 (by omega)
    have hs : bitLength random - 53 = 1021 := by omega
    have hdvd := f64Round_dvd random
    rw [hs, hrep] at hdvd
    obtain ⟨m, hm⟩ := hdvd
    omega

theorem f64Round_of_low_remainder (n b e : Nat) (hs : bitLength n - 53 = e)
    (hlo : b * 2 ^ e ≤ n) (hhi : 2 * (n - b * 2 ^ e) < 2 ^ e) : f64Round n = b * 2 ^ e := by
  have hpos : 0 < 2 ^ e := Nat.pow_pos (by decide)
  have hlt : n < Nat.succ b * 2 ^ e := by
    rw [Nat.succ_mul]
    omega
  have hq : n / 2 ^ e = b := Nat.div_eq_of_lt_le hlo hlt
  have hrem : n % 2 ^ e = n - b * 2 ^ e := by
    have hdm := Nat.div_add_mod n (2 ^ e)
    rw [hq, Nat.mul_comm] at hdm
    omega
  unfold f64Round
  dsimp only
  rw [hs, hq, hrem, if_neg (by omega)]

theorem f64Round_mul_le_of_draw (random : Nat) (h : isRandomDraw random) :
    f64Round (random * 65535) ≤ (65535 * 2 ^ 37 - 1) * 2 ^ 1037 := by
  have hr := isRandomDraw_le random h
  by_cases hlt : random * 65535 < (65535 * 2 ^ 37 - 1) * 2 ^ 1037
  · have hbits : bitLength (random * 65535) - 53 ≤ 1037 := by
      have := bitLength_le (random * 65535) 1090 (by omega)
      omega
    exact f64Round_le (random * 65535) (65535 * 2 ^ 37 - 1) 1037 hlt hbits
  · have hle := bitLength_le (random * 65535) 1090 (by omega)
    have hge := bitLength_ge (random * 65535) 1089 (by omega)
    have hs : bitLength (random * 65535) - 53 = 1037 := by omega
    have hlo : (65535 * 2 ^ 37 - 1) * 2 ^ 1037 ≤ random * 65535 := Nat.le_of_not_lt hlt
    have hhi : 2 * (random * 65535 - (65535 * 2 ^ 37 - 1) * 2 ^ 1037) < 2 ^ 1037 := by omega
    exact le_of_eq (f64Round_of_low_remainder _ _ 1037 hs hlo hhi)

theorem mathFloor_mul_le_of_draw (random : Nat) (h : isRandomDraw random) :
    mathFloor (f64MulNat random 65535) ≤ 65534 := by
  have hr := f64Round_mul_le_of_draw random h
  have hlt : f64Round (random * 65535) < 65535 * 2 ^ 1074 := by omega
  have hdiv : f64Round (random * 65535) / 2 ^ 1074 ≤ 65534 :=
    Nat.lt_succ_iff.1 ((Nat.div_lt_iff_lt_mul (Nat.pow_pos (by decide))).2 hlt)
  unfold mathFloor f64MulNat f64One
  exact_mod_cast hdiv

/-- C22: the seed never equals 65535.  For every value `r` that `Math.random()`
can return, `0 <= r < 1`, the initial `nextId = max(1, floor(r * 65535))` is at
most 65534; and a draw with `floor(r * 65535) = 0` and a draw with
`floor(r * 65535) = 1` both give the seed 1. -/
theorem constructor_seed_le_65534 (random : Nat) (h : isRandomDraw random) :
    (constructor random).nextId ≤ 65534 ∧ (constructor random).nextId ≠ 65535 ∧
      (mathFloor (f64MulNat random 65535) = 0 → (constructor random).nextId = 1) ∧
      (mathFloor (f64MulNat random 65535) = 1 → (constructor random).nextId = 1) := by
  have hf := mathFloor_mul_le_of_draw random h
  have hc : (constructor random).nextId = max 1 (mathFloor (f64MulNat random 65535)) := rfl
  have hhigh : max 1 (mathFloor (f64MulNat random 65535)) ≤ 65534 := max_le (by decide) hf
  rw [hc]
  refine ⟨hhigh, by omega, ?_, ?_⟩
  · intro h0
    rw [h0]
    decide
  · intro h1
    rw [h1]
    decide

/-- Witness for C22: the largest value below 1, `r = 1 - 2^-53`, gives the seed
65534; the draws `r = 0` (floor 0) and `r = 2^-15` (floor 1) both give the seed 1. -/
theorem constructor_seed_le_65534_witness :
    isRandomDraw (2 ^ 1074 - 2 ^ 1021) ∧ (constructor (2 ^ 1074 - 2 ^ 1021)).nextId = 65534 ∧
      (constructor (2 ^ 1074 - 2 ^ 1021)).nextId ≤ 65534 ∧
      mathFloor (f64MulNat 0 65535) = 0 ∧ (constructor 0).nextId = 1 ∧
      isRandomDraw (2 ^ 1059) ∧ mathFloor (f64MulNat (2 ^ 1059) 65535) = 1 ∧
      (constructor (2 ^ 1059)).nextId = 1 :=
  ⟨by decide, by decide, (constructor_seed_le_65534 (2 ^ 1074 - 2 ^ 1021) (by decide)).1,
    by decide, (constructor_seed_le_65534 0 (by decide)).2.2.1 (by decide),
    by decide, by decide, (constructor_seed_le_65534 (2 ^ 1059) (by decide)).2.2.2 (by decide)⟩

end DefaultMessageIdProvider

namespace MqttClient

/-! ## Topic filter validation -/

theorem validateLevels_iff (ls : List (List Char)) :
    validateLevels ls = true ↔
      ∀ (pre : List (List Char)) (l : List Char) (post : List (List Char)),
        ls = pre ++ l :: post → levelAllowed l post := by
  induction ls with
  | nil => simp [validateLevels]
  | cons l0 ls ih =>
    constructor
    · intro hv pre l post hdec
      cases pre with
      | nil =>
        simp only [List.nil_append, List.cons.injEq] at hdec
        obtain ⟨rfl, rfl⟩ := hdec
        unfold validateLevels at hv
        unfold levelAllowed
        by_cases h1 : '#' ∈ l0
        · simp only [h1, if_true, decide_eq_true_eq] at hv
          exact Or.inr (Or.inr hv)
        · by_cases h2 : '+' ∈ l0
          · simp only [h1, h2, if_true, if_false, Bool.and_eq_true, decide_eq_true_eq] at hv
            exact Or.inr (Or.inl hv.1)
          · exact Or.inl ⟨h2, h1⟩
      | cons a pre =>
        simp only [List.cons_append, List.cons.injEq] at hdec
        obtain ⟨_, hls⟩ := hdec
        have hvl : validateLevels ls = true := by
          unfold validateLevels at hv
          by_cases h1 : '#' ∈ l0
          · simp only [h1, if_true, decide_eq_true_eq] at hv
            rw [hv.2] at hls
            simp at hls
          · by_cases h2 : '+' ∈ l0
            · simp only [h1, h2, if_true, if_false, Bool.and_eq_true] at hv
              exact hv.2
            · simp only [h1, h2, if_false] at hv
              exact hv
        exact ih.1 hvl pre l post hls
    · intro hall
      have hvl : validateLevels ls = true :=
        ih.2 (fun pre l post h => hall (l0 :: pre) l post (by rw [h]; rfl))
      have hhead := hall [] l0 ls rfl
      unfold validateLevels
      unfold levelAllowed at hhead
      rcases hhead with ⟨hp, hh⟩ | hplus | ⟨hhash, hnil⟩
      · simp [hp, hh, hvl]
      · subst hplus
        simp [hvl]
      · subst hhash
        simp [hnil]

theorem validateTopic_of_wellFormed (t : String) (h : wellFormedFilter t) :
    validateTopic t = true :=
  (validateLevels_iff _).2 h

theorem wellFormed_of_validateTopic (t : String) (h : validateTopic t = true) :
    wellFormedFilter t :=
  (validateLevels_iff _).1 h

theorem validateTopic_of_malformed (t : String) (h : malformedFilter t) :
    validateTopic t = false := by
  obtain ⟨pre, l, post, hdec, hbad⟩ := h
  cases hv : validateTopic t with
  | false => rfl
  | true =>
    exfalso
    have hok := wellFormed_of_validateTopic t hv pre l post hdec
    unfold levelAllowed at hok
    rcases hok with ⟨hp, hh⟩ | hplus | ⟨hhash, hnil⟩
    · rcases hbad with ⟨h1, _⟩ | ⟨h2, _⟩
      · exact hh h1
      · exact hp h2
    · subst hplus
      rcases hbad with ⟨h1, _⟩ | ⟨_, h2⟩
      · simp at h1
      · exact h2 rfl
    · subst hhash
      rcases hbad with ⟨_, h1⟩ | ⟨h2, _⟩
      · exact h1 ⟨rfl, hnil⟩
      · simp at h2

theorem validateTopics_none (filters : List String) (hne : filters ≠ [])
    (hall : ∀ t ∈ filters, validateTopic t = true) : validateTopics filters = none := by
  unfold validateTopics
  rw [if_neg hne]
  have hfind : filters.find? (fun t => !validateTopic t) = none := by
    rw [List.find?_eq_none]
    intro t ht
    simp [hall t ht]
  rw [hfind]

theorem validateTopics_some (filters : List String) (t : String) (ht : t ∈ filters)
    (hbad : validateTopic t = false) : ∃ err, validateTopics filters = some err := by
  unfold validateTopics
  split
  · exact ⟨_, rfl⟩
  · cases hfind : filters.find? (fun t => !validateTopic t) with
    | some u => exact ⟨_, rfl⟩
    | none =>
      exfalso
      rw [List.find?_eq_none] at hfind
      have := hfind t ht
      simp [hbad] at this

theorem subscribe_of_error (c : Client) (filters : List String) (cb : Nat) (err : ClientError)
    (h : validateTopics filters = some err) :
    subscribe c filters cb = { c with completed := c.completed ++ [(cb, some err)] } := by
  unfold subscribe
  rw [h]

/-- C13, counterexample: the empty list of filters has no level that is not
allowed, and `subscribe([])` completes its callback with a validation error. -/
theorem subscribe_empty_list_is_wellFormed :
    (∀ t ∈ ([] : List String), wellFormedFilter t) ∧
      (subscribe (newClient (DefaultMessageIdProvider.constructor 0)) [] 7).completed =
        [(7, some ClientError.emptyTopicList)] := by
  constructor
  · intro t ht
    cases ht
  · decide

/-- C13, amended: for every non-empty list of filters in which each
`/`-delimited level is free of wildcards, or is `+` alone, or is `#` alone as the
last level, the validation of `subscribe` reports no error, and `subscribe`
completes its callback with no validation error. -/
theorem subscribe_accepts_wellFormed (c : Client) (filters : List String) (cb : Nat)
    (hne : filters ≠ []) (hwf : ∀ t ∈ filters, wellFormedFilter t) :
    validateTopics filters = none ∧
      (∀ t ∈ filters, validateTopic t = true) ∧
      ∀ err : ClientError, (cb, some err) ∈ (subscribe c filters cb).completed →
        (cb, some err) ∈ c.completed := by
  have hall : ∀ t ∈ filters, validateTopic t = true :=
    fun t ht => validateTopic_of_wellFormed t (hwf t ht)
  have hnone := validateTopics_none filters hne hall
  refine ⟨hnone, hall, ?_⟩
  intro err hmem
  unfold subscribe at hmem
  rw [hnone] at hmem
  dsimp only at hmem
  split at hmem
  · simpa using hmem
  · split at hmem <;> exact hmem

/-- Witness for C13, amended: the list of well-formed filters of the test suite. -/
theorem subscribe_accepts_wellFormed_witness :
    validateTopics ["+", "+/event", "event/+", "#", "event/#", "system/event/+",
      "system/+/event", "system/registry/event/#", "system/+/event/#",
      "system/registry/event/new_device", "system/+/+/new_device"] = none :=
  (subscribe_accepts_wellFormed (newClient (DefaultMessageIdProvider.constructor 0))
    ["+", "+/event", "event/+", "#", "event/#", "system/event/+",
      "system/+/event", "system/registry/event/#", "system/+/event/#",
      "system/registry/event/new_device", "system/+/+/new_device"] 7 (by decide)
    (fun t ht => wellFormed_of_validateTopic t
      (List.all_eq_true.1 (by decide : (["+", "+/event", "event/+", "#", "event/#",
        "system/event/+", "system/+/event", "system/registry/event/#", "system/+/event/#",
        "system/registry/event/new_device", "system/+/+/new_device"].all validateTopic) = true)
        t ht))).1

/-- C14: for every filter in which `#` appears anywhere other than as the whole
last level, or in which `+` shares a level with other characters, and for every
list that contains such a filter, `subscribe` invokes its callback with an error
and sends no packet: nothing is written or enqueued and no id is allocated. -/
theorem subscribe_rejects_malformed (c : Client) (filters : List String) (cb : Nat)
    (t : String) (ht : t ∈ filters) (hm : malformedFilter t) :
    validateTopic t = false ∧
      ∃ err : ClientError,
        (subscribe c filters cb).completed = c.completed ++ [(cb, some err)] ∧
        (subscribe c filters cb).sent = c.sent ∧
        (subscribe c filters cb).queue = c.queue ∧
        (subscribe c filters cb).outgoing = c.outgoing ∧
        (subscribe c filters cb).messageIdProvider = c.messageIdProvider := by
  have hbad := validateTopic_of_malformed t hm
  obtain ⟨err, herr⟩ := validateTopics_some filters t ht hbad
  refine ⟨hbad, err, ?_⟩
  rw [subscribe_of_error c filters cb err herr]
  exact ⟨rfl, rfl, rfl, rfl, rfl⟩

/-- Witness for C14: the filter `#/event` in the list of the test suite, and the
five malformed filters of the test suite, each of which fails the validation. -/
theorem subscribe_rejects_malformed_witness :
    "#/event" ∈ ["#/event", "event#", "event+"] ∧ validateTopic "#/event" = false ∧
      ["#/event", "event#", "event+", "system/#/event", "system/+/#/event"].all
        (fun t => !validateTopic t) = true :=
  ⟨by decide,
    (subscribe_rejects_malformed (newClient (DefaultMessageIdProvider.constructor 0))
      ["#/event", "event#", "event+"] 7 "#/event" (by decide)
      ⟨[], ['#'], ["event".toList], by decide, Or.inl ⟨by decide, by decide⟩⟩).1,
    by decide⟩

/-- C15: `subscribe([])` invokes its callback with a validation error, and sends
no packet. -/
theorem subscribe_empty_list_rejected (c : Client) (cb : Nat) :
    validateTopics [] = some ClientError.emptyTopicList ∧
      (subscribe c [] cb).completed = c.completed ++ [(cb, some ClientError.emptyTopicList)] ∧
      (subscribe c [] cb).sent = c.sent ∧ (subscribe c [] cb).queue = c.queue := by
  have h : validateTopics [] = some ClientError.emptyTopicList := rfl
  rw [subscribe_of_error c [] cb _ h]
  exact ⟨h, rfl, rfl, rfl⟩

/-! ## Cancelling an outgoing publish -/

theorem getLastAllocated_allocate (p : DefaultMessageIdProvider)
    (h : DefaultMessageIdProvider.inRange p) :
    DefaultMessageIdProvider.getLastAllocated (DefaultMessageIdProvider.allocate p).2 =
      p.nextId := by
  obtain ⟨h1, h2⟩ := h
  have hs := DefaultMessageIdProvider.allocate_snd p (by omega) (by omega)
  have hb : 1 ≤ (DefaultMessageIdProvider.allocate p).2.nextId ∧
      (DefaultMessageIdProvider.allocate p).2.nextId ≤ 65535 := by
    rw [hs]
    split_ifs <;> omega
  rw [DefaultMessageIdProvider.getLastAllocated_eq _ (by omega) (by omega)]
  split_ifs at hs ⊢ <;> omega

theorem reconnectCycle_store (x : Client) :
    (reconnectCycle x).outgoingStore = x.outgoingStore ∧
      (reconnectCycle x).outgoing = x.outgoing := by
  unfold reconnectCycle onConnect onClose
  split <;> exact ⟨rfl, rfl⟩

theorem reconnectCycle_idle (x : Client) (hq : x.queue = []) (hs : x.outgoingStore = []) :
    (reconnectCycle x).sent = x.sent ∧ (reconnectCycle x).queue = [] := by
  unfold reconnectCycle onConnect onClose
  split <;> simp [hq, hs]

theorem reconnectCycle_queue (x : Client) : (reconnectCycle x).queue = [] := by
  unfold reconnectCycle onConnect
  rfl

theorem iterate_reconnectCycle_store (n : Nat) (x : Client) :
    (reconnectCycle^[n] x).outgoingStore = x.outgoingStore ∧
      (reconnectCycle^[n] x).outgoing = x.outgoing := by
  induction n with
  | zero => exact ⟨rfl, rfl⟩
  | succ n ih =>
    rw [Function.iterate_succ_apply']
    exact ⟨(reconnectCycle_store _).1.trans ih.1, (reconnectCycle_store _).2.trans ih.2⟩

theorem iterate_reconnectCycle_idle (n : Nat) (x : Client) (hq : x.queue = [])
    (hs : x.outgoingStore = []) :
    (reconnectCycle^[n] x).sent = x.sent ∧ (reconnectCycle^[n] x).queue = [] := by
  induction n with
  | zero => exact ⟨rfl, hq⟩
  | succ n ih =>
    rw [Function.iterate_succ_apply']
    have hstore := (iterate_reconnectCycle_store n x).1.trans hs
    have hstep := reconnectCycle_idle _ ih.2 hstore
    exact ⟨hstep.1.trans ih.1, hstep.2⟩

theorem publish_qos12 (c : Client) (topic payload : String) (qos cb : Nat)
    (hq : qos = 1 ∨ qos = 2) :
    publish c topic payload qos cb =
      { c with
        messageIdProvider := (DefaultMessageIdProvider.allocate c.messageIdProvider).2,
        outgoing := c.outgoing ++ [(c.messageIdProvider.nextId, cb)],
        outgoingStore := c.outgoingStore ++
          [Packet.publish (some c.messageIdProvider.nextId) qos topic payload],
        sent := if c.connected then
            c.sent ++ [Packet.publish (some c.messageIdProvider.nextId) qos topic payload]
          else c.sent } := by
  have h0 : qos ≠ 0 := by omega
  unfold publish
  rw [if_neg h0]
  dsimp only
  rw [DefaultMessageIdProvider.allocate_fst]
  split <;> rfl

/-- C12: after a publish with QoS 1 or 2 on a client with no in-flight entries,
connected or not (the publish allocates one id and creates one outgoing entry and
one store entry), `removeOutgoingMessage(getLastMessageId())` completes the
publish callback with the error "Message removed" and leaves the in-memory
outgoing table and the outgoing store empty; after it no reconnect, however
many follow, writes any packet, so the message is not resent, and a message
published while offline is never written at all. -/
theorem removeOutgoingMessage_cancels_publish (c : Client) (topic payload : String)
    (qos cb : Nat) (hq : qos = 1 ∨ qos = 2)
    (hin : DefaultMessageIdProvider.inRange c.messageIdProvider)
    (ho : c.outgoing = []) (hs : c.outgoingStore = []) (hqueue : c.queue = []) (n : Nat) :
    (publish c topic payload qos cb).messageIdProvider =
        (DefaultMessageIdProvider.allocate c.messageIdProvider).2 ∧
      (publish c topic payload qos cb).outgoing.length = 1 ∧
      (publish c topic payload qos cb).outgoingStore.length = 1 ∧
      getLastMessageId (publish c topic payload qos cb) = c.messageIdProvider.nextId ∧
      (removeOutgoingMessage (publish c topic payload qos cb)
          (getLastMessageId (publish c topic payload qos cb))).completed =
        c.completed ++ [(cb, some (ClientError.error "Message removed"))] ∧
      (removeOutgoingMessage (publish c topic payload qos cb)
          (getLastMessageId (publish c topic payload qos cb))).outgoing = [] ∧
      (removeOutgoingMessage (publish c topic payload qos cb)
          (getLastMessageId (publish c topic payload qos cb))).outgoingStore = [] ∧
      (reconnectCycle^[n] (removeOutgoingMessage (publish c topic payload qos cb)
          (getLastMessageId (publish c topic payload qos cb)))).outgoingStore = [] ∧
      (reconnectCycle^[n] (removeOutgoingMessage (publish c topic payload qos cb)
          (getLastMessageId (publish c topic payload qos cb)))).sent =
        (publish c topic payload qos cb).sent ∧
      (c.connected = false →
        (reconnectCycle^[n] (removeOutgoingMessage (publish c topic payload qos cb)
          (getLastMessageId (publish c topic payload qos cb)))).sent = c.sent) ∧
      (c.connected = true →
        (reconnectCycle^[n] (removeOutgoingMessage (publish c topic payload qos cb)
          (getLastMessageId (publish c topic payload qos cb)))).sent =
          c.sent ++ [Packet.publish (some c.messageIdProvider.nextId) qos topic payload]) := by
  have hlast : getLastMessageId (publish c topic payload qos cb) =
      c.messageIdProvider.nextId := by
    rw [publish_qos12 c topic payload qos cb hq]
    exact getLastAllocated_allocate _ hin
  rw [hlast]
  have hout : (removeOutgoingMessage (publish c topic payload qos cb)
      c.messageIdProvider.nextId).outgoing = [] := by
    rw [publish_qos12 c topic payload qos cb hq]
    simp [removeOutgoingMessage, ho]
  have hstore : (removeOutgoingMessage (publish c topic payload qos cb)
      c.messageIdProvider.nextId).outgoingStore = [] := by
    rw [publish_qos12 c topic payload qos cb hq]
    simp [removeOutgoingMessage, hs, Packet.messageId]
  have hcompleted : (removeOutgoingMessage (publish c topic payload qos cb)
      c.messageIdProvider.nextId).completed =
      c.completed ++ [(cb, some (ClientError.error "Message removed"))] := by
    rw [publish_qos12 c topic payload qos cb hq]
    simp [removeOutgoingMessage, ho]
  have hq0 : (removeOutgoingMessage (publish c topic payload qos cb)
      c.messageIdProvider.nextId).queue = [] := by
    rw [publish_qos12 c topic payload qos cb hq]
    simp [removeOutgoingMessage, hqueue]
  have hsent0 : (removeOutgoingMessage (publish c topic payload qos cb)
      c.messageIdProvider.nextId).sent = (publish c topic payload qos cb).sent := rfl
  have hsent : (reconnectCycle^[n] (removeOutgoingMessage (publish c topic payload qos cb)
      c.messageIdProvider.nextId)).sent = (publish c topic payload qos cb).sent :=
    (iterate_reconnectCycle_idle n _ hq0 hstore).1.trans hsent0
  refine ⟨?_, ?_, ?_, rfl, hcompleted, hout, hstore, ?_, hsent, ?_, ?_⟩
  · rw [publish_qos12 c topic payload qos cb hq]
  · rw [publish_qos12 c topic payload qos cb hq]
    simp [ho]
  · rw [publish_qos12 c topic payload qos cb hq]
    simp [hs]
  · exact (iterate_reconnectCycle_store n _).1.trans hstore
  · intro hconn
    rw [hsent, publish_qos12 c topic payload qos cb hq]
    simp [hconn]
  · intro hconn
    rw [hsent, publish_qos12 c topic payload qos cb hq]
    simp [hconn]

/-- Witness for C12: a QoS 1 publish on a new client, not yet connected, whose
provider is in the state `nextId = 65535`, cancelled through the last message
id, then three reconnects: the callback has the error, table and store are
empty, and nothing has been written. -/
theorem removeOutgoingMessage_cancels_publish_witness :
    (removeOutgoingMessage (publish (newClient ⟨65535⟩) "hello" "world" 1 7)
        (getLastMessageId (publish (newClient ⟨65535⟩) "hello" "world" 1 7))).completed =
        (newClient ⟨65535⟩).completed ++ [(7, some (ClientError.error "Message removed"))] ∧
      (removeOutgoingMessage (publish (newClient ⟨65535⟩) "hello" "world" 1 7)
        (getLastMessageId (publish (newClient ⟨65535⟩) "hello" "world" 1 7))).outgoing = [] ∧
      (removeOutgoingMessage (publish (newClient ⟨65535⟩) "hello" "world" 1 7)
        (getLastMessageId (publish (newClient ⟨65535⟩) "hello" "world" 1 7))).outgoingStore
        = [] ∧
      (reconnectCycle^[3] (removeOutgoingMessage
        (publish (newClient ⟨65535⟩) "hello" "world" 1 7)
        (getLastMessageId (publish (newClient ⟨65535⟩) "hello" "world" 1 7)))).sent =
        (newClient ⟨65535⟩).sent :=
  ⟨(removeOutgoingMessage_cancels_publish (newClient ⟨65535⟩) "hello" "world" 1 7
      (Or.inl rfl) (by decide) rfl rfl rfl 3).2.2.2.2.1,
    (removeOutgoingMessage_cancels_publish (newClient ⟨65535⟩) "hello" "world" 1 7
      (Or.inl rfl) (by decide) rfl rfl rfl 3).2.2.2.2.2.1,
    (removeOutgoingMessage_cancels_publish (newClient ⟨65535⟩) "hello" "world" 1 7
      (Or.inl rfl) (by decide) rfl rfl rfl 3).2.2.2.2.2.2.1,
    (removeOutgoingMessage_cancels_publish (newClient ⟨65535⟩) "hello" "world" 1 7
      (Or.inl rfl) (by decide) rfl rfl rfl 3).2.2.2.2.2.2.2.2.2.1 rfl⟩

/-! ## Ending the client -/

theorem endClient_of_disconnecting (depth : Nat) (c : Client) (h : c.disconnecting = true) :
    endClient depth c = c := by
  cases depth with
  | zero => rfl
  | succ d =>
    unfold endClient
    rw [if_pos h]

theorem listener_noop (depth : Nat) (listener : List ListenerCall) (c : Client)
    (h : c.disconnecting = true) :
    listener.foldl (fun acc2 _ => endClient depth acc2) c = c := by
  induction listener with
  | nil => rfl
  | cons a l ih =>
    rw [List.foldl_cons, endClient_of_disconnecting depth c h]
    exact ih

theorem listeners_noop (depth : Nat) (listeners : List (List ListenerCall)) (c : Client)
    (h : c.disconnecting = true) :
    listeners.foldl
      (fun acc listener => listener.foldl (fun acc2 _ => endClient depth acc2) acc) c = c := by
  induction listeners with
  | nil => rfl
  | cons a l ih =>
    rw [List.foldl_cons, listener_noop depth a c h]
    exact ih

theorem endClient_first (depth : Nat) (c : Client) (h : c.disconnecting = false) :
    endClient (depth + 1) c =
      { c with disconnecting := true, connected := false,
               events := c.events ++ [Event.endEvent], endListeners := [] } := by
  unfold endClient
  rw [if_neg (by simp [h])]
  exact listeners_noop depth _ _ rfl

/-- C16: `end` is idempotent.  On a client that is not yet ending, a second call
of `end()` returns the same client as the first call returned, and the terminal
`end` notification is emitted once, also when a listener of that notification
calls `end()` again. -/
theorem endClient_idempotent (c : Client) (h : c.disconnecting = false) (depth depth2 : Nat) :
    endClient depth2 (endClient (depth + 1) c) = endClient (depth + 1) c ∧
      (endClient (depth + 1) c).events = c.events ++ [Event.endEvent] ∧
      (endClient (depth + 1) c).events.count Event.endEvent =
        c.events.count Event.endEvent + 1 ∧
      (endClient depth2 (endClient (depth + 1) c)).events.count Event.endEvent =
        c.events.count Event.endEvent + 1 := by
  have hfirst := endClient_first depth c h
  have hsecond : endClient depth2 (endClient (depth + 1) c) = endClient (depth + 1) c := by
    apply endClient_of_disconnecting
    rw [hfirst]
  have hevents : (endClient (depth + 1) c).events = c.events ++ [Event.endEvent] := by
    rw [hfirst]
  have hcount : (endClient (depth + 1) c).events.count Event.endEvent =
      c.events.count Event.endEvent + 1 := by
    rw [hevents, List.count_append]
    rfl
  refine ⟨hsecond, hevents, hcount, ?_⟩
  rw [hsecond]
  exact hcount

/-- Witness for C16: a connected client with one `end` listener that calls
`end()` again; after `end()` the notification has been emitted once. -/
theorem endClient_idempotent_witness :
    clientWithEndListener.disconnecting = false ∧
      (endClient 3 clientWithEndListener).events = [Event.endEvent] :=
  ⟨rfl, (endClient_idempotent clientWithEndListener rfl 2 5).2.1⟩

end MqttClient
